import Mathlib

/-!
Shallow embedding of the core logic of the JScript-Full-Stack-Project
backend (file src/App/utilities/utilities.js): the role-based
authorization gates (securityMiddleware, adminMiddleware), the product
validation function (validateProduct), the id generator (generateId),
and the cart pricing engine (calculateBalance, getCartWithDetails,
readJson).

JavaScript dynamic values are modelled by small inductive types that
cover the shapes the functions inspect: numbers carry the IEEE special
values Infinity, -Infinity and NaN as explicit constructors over an
exact rational payload (the source does only multiplication, addition
and comparison on them, never anything that needs rounding), strings
are Lean strings, and the truthiness and typeof tests of the source are
spelled out as Boolean functions.
-/

/-- A JavaScript number: a finite value (modelled exactly as a rational,
since the source only multiplies, adds and compares), positive or
negative Infinity, or NaN. -/
inductive JSNum where
  | fin (q : ℚ)
  | inf
  | ninf
  | nan
deriving DecidableEq, Repr

/-- JavaScript truthiness of a number: 0 and NaN are falsy, everything
else (including the infinities) is truthy. -/
def JSNum.truthy : JSNum → Bool
  | .fin q => q ≠ 0
  | .inf => true
  | .ninf => true
  | .nan => false

/-- The JavaScript comparison `x <= 0`: false for NaN (all NaN
comparisons are false), true for -Infinity, false for Infinity. -/
def JSNum.leZero : JSNum → Bool
  | .fin q => q ≤ 0
  | .inf => false
  | .ninf => true
  | .nan => false

/-- Number.isNaN. -/
def JSNum.isNaN : JSNum → Bool
  | .nan => true
  | _ => false

/-- A JavaScript value in the positions the validated product fields can
take: a number, a string, a boolean, null, or some other object
(anything whose only relevant property is that typeof is neither
"number" nor "string" and that it is truthy). -/
inductive JSVal where
  | num (n : JSNum)
  | str (s : String)
  | boolean (b : Bool)
  | nullV
  | objV
deriving DecidableEq, Repr

/-! ### parseFloat

`parseFloat` of JavaScript: skip leading whitespace, read an optional
sign, then either the literal `Infinity` or the longest prefix that is a
decimal literal (digits, optional fraction, optional exponent whose
digits must be present for the exponent to count); if no digits were
read at all the result is NaN. -/

/-- Numeric value of a list of decimal digit characters. -/
def natOfDigits (ds : List Char) : ℕ :=
  ds.foldl (fun n c => 10 * n + (c.toNat - ('0').toNat)) 0

/-- Ten to an integer power, as an exact rational. -/
def pow10 (e : ℤ) : ℚ :=
  if 0 ≤ e then (10 : ℚ) ^ e.toNat else 1 / (10 : ℚ) ^ (-e).toNat

/-- Whitespace skipped by parseFloat. -/
def isJsSpace (c : Char) : Bool :=
  c = ' ' || c = '\t' || c = '\n' || c = '\r'

/-- The exponent part of a decimal literal: `e` or `E`, an optional
sign, and at least one digit; anything else contributes exponent 0
(parseFloat stops reading there). -/
def parseExponent (cs : List Char) : ℤ :=
  match cs with
  | c :: rest =>
    if c = 'e' || c = 'E' then
      let signAndRest : ℤ × List Char :=
        match rest with
        | '-' :: r => (-1, r)
        | '+' :: r => (1, r)
        | _ => (1, rest)
      let ds := signAndRest.2.takeWhile Char.isDigit
      if ds = [] then 0 else signAndRest.1 * (natOfDigits ds : ℤ)
    else 0
  | [] => 0

/-- The discrete outcome of lexing a parseFloat argument: not a number
at all, a signed Infinity, or a finite literal given by its sign,
integer digits value, fraction digits value, number of fraction digits,
and exponent. -/
inductive FloatParse where
  | nanP
  | infP (neg : Bool)
  | finP (neg : Bool) (intPart fracPart fracLen : ℕ) (exp : ℤ)
deriving DecidableEq, Repr

/-- Lexing of the characters that follow the optional sign: the literal
`Infinity`, or digits with an optional fraction (NaN when no digit was
read in either position) and the optional exponent. -/
def lexFloatBody (neg : Bool) (cs : List Char) : FloatParse :=
  if ("Infinity".data).isPrefixOf cs then FloatParse.infP neg
  else
    let ds1 := cs.takeWhile Char.isDigit
    let cs1 := cs.dropWhile Char.isDigit
    let fracAndRest : List Char × List Char :=
      match cs1 with
      | '.' :: rest => (rest.takeWhile Char.isDigit, rest.dropWhile Char.isDigit)
      | _ => ([], cs1)
    if ds1 = [] ∧ fracAndRest.1 = [] then FloatParse.nanP
    else
      FloatParse.finP neg (natOfDigits ds1) (natOfDigits fracAndRest.1)
        fracAndRest.1.length (parseExponent fracAndRest.2)

/-- Lexing of a parseFloat argument: skip leading whitespace, read an
optional sign, then lex the body. -/
def lexFloat (s : String) : FloatParse :=
  match s.data.dropWhile isJsSpace with
  | '-' :: rest => lexFloatBody true rest
  | '+' :: rest => lexFloatBody false rest
  | cs => lexFloatBody false cs

/-- The rational value of a lexed finite decimal literal. -/
def floatValue (neg : Bool) (intPart fracPart fracLen : ℕ) (exp : ℤ) : ℚ :=
  (if neg then (-1 : ℚ) else 1) * ((intPart : ℚ) + (fracPart : ℚ) / (10 : ℚ) ^ fracLen)
    * pow10 exp

/-- JavaScript parseFloat, restricted to the decimal and Infinity forms
it actually recognises. -/
def parseFloat (s : String) : JSNum :=
  match lexFloat s with
  | FloatParse.nanP => JSNum.nan
  | FloatParse.infP true => JSNum.ninf
  | FloatParse.infP false => JSNum.inf
  | FloatParse.finP neg ip fp fl e => JSNum.fin (floatValue neg ip fp fl e)

/-! ### Authorization gates (securityMiddleware, adminMiddleware)

`req.user` is the decoded token claims attached by the JWT middleware;
it is either absent (no authenticated identity) or an object carrying a
`roles` field. The `roles` field, when present, is either an array of
strings or a plain string; `includes` is Array.prototype.includes
(exact element equality) on the former and String.prototype.includes
(substring containment) on the latter. -/

/-- The value of the roles field of the claims: an array of strings or a
single string. -/
inductive RolesValue where
  | arr (roles : List String)
  | str (s : String)
deriving DecidableEq, Repr

/-- String.prototype.includes: substring containment. -/
def strIncludes (s needle : String) : Bool :=
  (s.data.tails).any (fun t => needle.data.isPrefixOf t)

/-- JavaScript truthiness of a roles value: arrays are always truthy
(even when empty), a string is truthy iff non-empty. -/
def RolesValue.truthy : RolesValue → Bool
  | .arr _ => true
  | .str s => !s.isEmpty

/-- The `includes` method the source calls on `req.user.roles`: exact
membership on an array, substring containment on a string. -/
def RolesValue.includes : RolesValue → String → Bool
  | .arr roles, r => roles.contains r
  | .str s, r => strIncludes s r

/-- The claims object `req.user`: carries an optional roles field
(absent covers both a missing field and a null value, which the
truthiness test treats alike). -/
structure UserClaims where
  roles : Option RolesValue
deriving DecidableEq, Repr

/-- What a middleware does with the request: call next(), or respond
with a status code and an error body `{ success, error }`. -/
inductive GateResult where
  | next
  | respond (status : ℕ) (success : Bool) (error : String)
deriving DecidableEq, Repr

/-- securityMiddleware: accepts when req.user exists, req.user.roles is
truthy, and roles.includes("user") or roles.includes("admin");
otherwise responds 403 `{ success: false, error: "Forbidden" }`. -/
def securityMiddleware (user : Option UserClaims) : GateResult :=
  match user with
  | some u =>
    match u.roles with
    | some rv =>
      if rv.truthy && (rv.includes "user" || rv.includes "admin") then
        GateResult.next
      else
        GateResult.respond 403 false "Forbidden"
    | none => GateResult.respond 403 false "Forbidden"
  | none => GateResult.respond 403 false "Forbidden"

/-- adminMiddleware: accepts when req.user exists, req.user.roles is
truthy, and roles.includes("admin"); otherwise responds 403
`{ success: false, error: "Forbidden" }`. -/
def adminMiddleware (user : Option UserClaims) : GateResult :=
  match user with
  | some u =>
    match u.roles with
    | some rv =>
      if rv.truthy && rv.includes "admin" then
        GateResult.next
      else
        GateResult.respond 403 false "Forbidden"
    | none => GateResult.respond 403 false "Forbidden"
  | none => GateResult.respond 403 false "Forbidden"

/-! ### validateProduct -/

/-- A candidate product payload: the two fields validateProduct
inspects, each possibly absent. -/
structure Candidate where
  name : Option JSVal
  price : Option JSVal
deriving DecidableEq, Repr

/-- String.prototype.trim: strip whitespace from both ends. -/
def jsTrim (s : String) : String :=
  String.mk (((s.data.dropWhile isJsSpace).reverse.dropWhile isJsSpace).reverse)

/-- The name rule of validateProduct:
`!product.name || typeof product.name !== "string" || product.name.trim() === ""`.
An absent field is undefined hence falsy; a string is falsy iff empty;
a non-string truthy value fails the typeof test; falsy non-strings fail
the truthiness test. -/
def nameInvalid (name : Option JSVal) : Bool :=
  match name with
  | none => true
  | some (JSVal.str s) => s.isEmpty || jsTrim s = ""
  | some _ => true

/-- The price rule of validateProduct: coerce a string through
parseFloat, leave any other value as is, then fail when the result is
falsy, is not a number, is `<= 0`, or is NaN. -/
def priceInvalid (price : Option JSVal) : Bool :=
  match price with
  | none => true
  | some (JSVal.num n) => !n.truthy || n.leZero || n.isNaN
  | some (JSVal.str s) =>
    let n := parseFloat s
    !n.truthy || n.leZero || n.isNaN
  | some _ => true

/-- The name error message of validateProduct. -/
def nameMsg : String := "Name is required and must be a non-empty string"

/-- The price error message of validateProduct. -/
def priceMsg : String := "Price is required and must be a positive number"

/-- validateProduct: pushes the name error when the candidate is absent
or its name fails the name rule, then pushes the price error when the
candidate is absent or its price fails the price rule, and returns the
accumulated error list. -/
def validateProduct (product : Option Candidate) : List String :=
  let errors : List String := []
  let errors :=
    if (match product with
        | none => true
        | some c => nameInvalid c.name) then
      errors.concat nameMsg
    else errors
  let errors :=
    if (match product with
        | none => true
        | some c => priceInvalid c.price) then
      errors.concat priceMsg
    else errors
  errors

/-! ### generateId -/

/-- An element of the list handed to generateId: the only property the
source reads is `id`. -/
structure IdEntry where
  id : ℤ
deriving DecidableEq, Repr

/-- The argument of generateId: an array, or one of the non-array
values the specification mentions (null, a string); Array.isArray is
false on the latter two. -/
inductive IdInput where
  | arr (items : List IdEntry)
  | nullV
  | strV (s : String)
deriving DecidableEq, Repr

/-- generateId: 1 when the argument is not an array or is empty,
otherwise `Math.max(...items.map(i => i.id)) + 1`. -/
def generateId : IdInput → ℤ
  | .nullV => 1
  | .strV _ => 1
  | .arr [] => 1
  | .arr (x :: xs) => xs.foldl (fun m y => max m y.id) x.id + 1

/-! ### Cart pricing engine -/

/-- A catalog product. Prices are exact rationals: the source performs
only multiplication and addition on them. -/
structure Product where
  id : ℤ
  name : String
  price : ℚ
deriving DecidableEq, Repr

/-- A cart line item as persisted. The quantity is kept rational
because the pricing layer supports fractional quantities. -/
structure CartItem where
  id : ℤ
  productId : ℤ
  quantity : ℚ
  addedAt : String
deriving DecidableEq, Repr

/-- A derived cart line: the cart item fields spread unchanged, plus
the resolved product (null when the productId does not resolve) and the
line subtotal. -/
structure CartLineDetail where
  id : ℤ
  productId : ℤ
  quantity : ℚ
  addedAt : String
  product : Option Product
  subtotal : ℚ
deriving DecidableEq, Repr

/-- The aggregate returned by getCartWithDetails. -/
structure CartSummary where
  items : List CartLineDetail
  balance : ℚ
  itemCount : ℚ
deriving DecidableEq, Repr

/-- Outcome of reading one of the flat JSON files: the parsed value, or
a failure (missing file or content that JSON.parse rejects). -/
inductive ReadResult (α : Type) where
  | ok (value : α)
  | err
deriving DecidableEq, Repr

/-- readJson: return the parsed data, or the supplied default when the
read or the parse throws. -/
def readJson {α : Type} (source : ReadResult α) (defaultValue : α) : α :=
  match source with
  | .ok v => v
  | .err => defaultValue

/-- readCart: readJson over the cart file with default `[]`. -/
def readCart (source : ReadResult (List CartItem)) : List CartItem :=
  readJson source []

/-- readProducts: readJson over the products file with default `[]`. -/
def readProducts (source : ReadResult (List Product)) : List Product :=
  readJson source []

/-- calculateBalance: reduce over the cart items, resolving each
productId against the catalog with `find` (first match by exact id
equality) and accumulating `product.price * item.quantity` for resolved
items, skipping unresolved ones. -/
def calculateBalance (cartItems : List CartItem) (products : List Product) : ℚ :=
  cartItems.foldl
    (fun total cartItem =>
      match products.find? (fun p => p.id == cartItem.productId) with
      | some product => total + product.price * cartItem.quantity
      | none => total)
    0

/-- One line of the map inside getCartWithDetails: the cart item spread
into the result, `product` the first catalog match or null, `subtotal`
price times quantity when resolved and 0 otherwise. -/
def cartLine (products : List Product) (cartItem : CartItem) : CartLineDetail :=
  match products.find? (fun p => p.id == cartItem.productId) with
  | some product =>
    { id := cartItem.id, productId := cartItem.productId,
      quantity := cartItem.quantity, addedAt := cartItem.addedAt,
      product := some product, subtotal := product.price * cartItem.quantity }
  | none =>
    { id := cartItem.id, productId := cartItem.productId,
      quantity := cartItem.quantity, addedAt := cartItem.addedAt,
      product := none, subtotal := 0 }

/-- getCartWithDetails: read the cart and the catalog (each read falls
back to `[]` on failure), map every cart item to its line detail,
compute the balance with calculateBalance, and sum the quantities into
itemCount. -/
def getCartWithDetails (cartSource : ReadResult (List CartItem))
    (productSource : ReadResult (List Product)) : CartSummary :=
  let cartItems := readCart cartSource
  let products := readProducts productSource
  { items := cartItems.map (cartLine products),
    balance := calculateBalance cartItems products,
    itemCount := cartItems.foldl (fun sum item => sum + item.quantity) 0 }

/-! ## Theorems -/

/-- A rejection by either middleware is the concrete 403 Forbidden body. -/
def forbidden : GateResult := GateResult.respond 403 false "Forbidden"

/-- C2: for claims whose roles field is a list of strings, the member
gate accepts iff the claims are present and the list contains the exact
string "user" or "admin", and the admin gate accepts iff the list
contains "admin"; otherwise (including missing claims, a missing roles
field, an empty list, a non-intersecting list, and the case-mismatched
list ["ADMIN"]) the gates respond 403 Forbidden. -/
theorem gates_on_string_lists (roles : List String) :
    (securityMiddleware (some ⟨some (RolesValue.arr roles)⟩) = GateResult.next ↔
      "user" ∈ roles ∨ "admin" ∈ roles) ∧
    (securityMiddleware (some ⟨some (RolesValue.arr roles)⟩) = forbidden ↔
      ¬("user" ∈ roles ∨ "admin" ∈ roles)) ∧
    (adminMiddleware (some ⟨some (RolesValue.arr roles)⟩) = GateResult.next ↔
      "admin" ∈ roles) ∧
    (adminMiddleware (some ⟨some (RolesValue.arr roles)⟩) = forbidden ↔
      "admin" ∉ roles) ∧
    securityMiddleware none = forbidden ∧
    adminMiddleware none = forbidden ∧
    securityMiddleware (some ⟨none⟩) = forbidden ∧
    adminMiddleware (some ⟨none⟩) = forbidden ∧
    securityMiddleware (some ⟨some (RolesValue.arr [])⟩) = forbidden ∧
    adminMiddleware (some ⟨some (RolesValue.arr [])⟩) = forbidden ∧
    adminMiddleware (some ⟨some (RolesValue.arr ["ADMIN"])⟩) = forbidden := by
  refine ⟨?_, ?_, ?_, ?_, by decide, by decide, by decide, by decide, by decide,
    by decide, by decide⟩ <;>
    (simp [securityMiddleware, adminMiddleware, RolesValue.truthy, RolesValue.includes,
       forbidden, List.contains, List.elem_iff]
     try tauto)

/-- C3 (behaviour of the code at the failing input): a string-valued
roles field is accepted by both gates through substring matching, in
contradiction with the repository's own middleware test, which expects
403 for `{ roles: "admin" }`. -/
theorem gates_accept_string_roles :
    securityMiddleware (some ⟨some (RolesValue.str "user")⟩) = GateResult.next ∧
    securityMiddleware (some ⟨some (RolesValue.str "admin")⟩) = GateResult.next ∧
    securityMiddleware (some ⟨some (RolesValue.str "superuser")⟩) = GateResult.next ∧
    adminMiddleware (some ⟨some (RolesValue.str "admin")⟩) = GateResult.next := by
  decide

/-- C10: any request the admin gate accepts is also accepted by the
member gate, whatever shape the claims have. -/
theorem adminGate_implies_memberGate (user : Option UserClaims)
    (h : adminMiddleware user = GateResult.next) :
    securityMiddleware user = GateResult.next := by
  match user with
  | none => simp [adminMiddleware] at h
  | some u =>
    match hr : u.roles with
    | none => simp [adminMiddleware, hr] at h
    | some rv =>
      simp [adminMiddleware, hr] at h
      by_cases ht : rv.truthy = true
      · by_cases ha : rv.includes "admin" = true
        · simp [securityMiddleware, hr, ht, ha]
        · simp [ht, ha] at h
      · simp [ht] at h

/-- C10 witness. -/
theorem adminGate_implies_memberGate_witness :
    securityMiddleware (some ⟨some (RolesValue.arr ["admin"])⟩) = GateResult.next :=
  adminGate_implies_memberGate (some ⟨some (RolesValue.arr ["admin"])⟩) (by decide)

/-- The left fold of max the source spreads Math.max over: the result is
the seed or an element of the list, is an upper bound of the seed, and
bounds every element. -/
lemma foldlMax_spec (ys : List ℤ) :
    ∀ a : ℤ, (ys.foldl max a = a ∨ ys.foldl max a ∈ ys) ∧
      a ≤ ys.foldl max a ∧ ∀ y ∈ ys, y ≤ ys.foldl max a := by
  induction ys with
  | nil => intro a; simp
  | cons x rest ih =>
    intro a
    obtain ⟨hmem, hle, hub⟩ := ih (max a x)
    rw [List.foldl_cons]
    refine ⟨?_, le_trans (le_max_left a x) hle, ?_⟩
    · rcases hmem with h | h
      · rcases max_choice a x with hm | hm
        · exact Or.inl (h.trans hm)
        · exact Or.inr (by rw [h, hm]; exact List.mem_cons_self x rest)
      · exact Or.inr (List.mem_cons_of_mem x h)
    · intro y hy
      rcases List.mem_cons.mp hy with rfl | h
      · exact le_trans (le_max_right a y) hle
      · exact hub y h

/-- C7: generateId returns 1 on null, on a string, and on an empty
array, and otherwise returns one plus the maximum id of the array's
elements, negative ids included ({-5, 2, -1} yields 3). -/
theorem generateId_spec :
    generateId IdInput.nullV = 1 ∧
    generateId (IdInput.strV "not an array") = 1 ∧
    generateId (IdInput.arr []) = 1 ∧
    generateId (IdInput.arr [⟨-5⟩, ⟨2⟩, ⟨-1⟩]) = 3 ∧
    ∀ items : List IdEntry, items ≠ [] →
      ∃ m : ℤ, m ∈ items.map IdEntry.id ∧ (∀ y ∈ items.map IdEntry.id, y ≤ m) ∧
        generateId (IdInput.arr items) = m + 1 := by
  refine ⟨by decide, by decide, by decide, by decide, ?_⟩
  intro items hne
  match items with
  | [] => exact absurd rfl hne
  | x :: xs =>
    obtain ⟨hmem, hle, hub⟩ := foldlMax_spec (xs.map IdEntry.id) x.id
    refine ⟨(xs.map IdEntry.id).foldl max x.id, ?_, ?_, ?_⟩
    · rw [List.map_cons]
      rcases hmem with h | h
      · rw [h]; exact List.mem_cons_self x.id (xs.map IdEntry.id)
      · exact List.mem_cons_of_mem x.id h
    · intro y hy
      rw [List.map_cons] at hy
      rcases List.mem_cons.mp hy with rfl | h
      · exact hle
      · exact hub y h
    · show xs.foldl (fun m y => max m y.id) x.id + 1 = _
      rw [List.foldl_map]

/-- C7 witness: the maximum-plus-one branch applied to the concrete
array with ids -5, 2, -1. -/
theorem generateId_spec_witness :
    ∃ m : ℤ, m ∈ ([⟨-5⟩, ⟨2⟩, ⟨-1⟩] : List IdEntry).map IdEntry.id ∧
      (∀ y ∈ ([⟨-5⟩, ⟨2⟩, ⟨-1⟩] : List IdEntry).map IdEntry.id, y ≤ m) ∧
      generateId (IdInput.arr [⟨-5⟩, ⟨2⟩, ⟨-1⟩]) = m + 1 :=
  generateId_spec.2.2.2.2 [⟨-5⟩, ⟨2⟩, ⟨-1⟩] (by decide)

/-- Positivity of a JavaScript number, Infinity included. -/
def numPositive : JSNum → Bool
  | JSNum.fin q => 0 < q
  | JSNum.inf => true
  | JSNum.ninf => false
  | JSNum.nan => false

/-- The price of a possibly absent candidate. -/
def candidatePrice : Option Candidate → Option JSVal
  | none => none
  | some c => c.price

/-- The coercion validateProduct applies to the price (numbers kept,
strings through parseFloat), tested for a positive result with Infinity
allowed. -/
def coercesToPositive (price : Option JSVal) : Bool :=
  match price with
  | some (JSVal.num n) => numPositive n
  | some (JSVal.str s) => numPositive (parseFloat s)
  | _ => false

/-- The same coercion tested for a finite positive result, following the
specification's words (price must coerce to a finite positive number). -/
def coercesToFinitePositive (price : Option JSVal) : Bool :=
  match price with
  | some (JSVal.num (JSNum.fin q)) => 0 < q
  | some (JSVal.str s) =>
    match parseFloat s with
    | JSNum.fin q => 0 < q
    | _ => false
  | _ => false

/-- The price check of the source fails exactly on the non-positive
coerced values, Infinity counting as positive. -/
lemma priceFlags_iff (n : JSNum) :
    (!n.truthy || n.leZero || n.isNaN) = true ↔ numPositive n = false := by
  cases n with
  | fin q =>
    simp [JSNum.truthy, JSNum.leZero, JSNum.isNaN, numPositive]
    exact fun h => le_of_eq h
  | inf => simp [JSNum.truthy, JSNum.leZero, JSNum.isNaN, numPositive]
  | ninf => simp [JSNum.truthy, JSNum.leZero, JSNum.isNaN, numPositive]
  | nan => simp [JSNum.truthy, JSNum.leZero, JSNum.isNaN, numPositive]

/-- The two error messages differ. -/
lemma nameMsg_ne_priceMsg : nameMsg ≠ priceMsg := by decide

/-- priceInvalid is the negation of the positive coercion. -/
lemma priceInvalid_iff (price : Option JSVal) :
    priceInvalid price = true ↔ coercesToPositive price = false := by
  match price with
  | none => simp [priceInvalid, coercesToPositive]
  | some (JSVal.num n) =>
    simpa [priceInvalid, coercesToPositive] using priceFlags_iff n
  | some (JSVal.str s) =>
    simpa [priceInvalid, coercesToPositive] using priceFlags_iff (parseFloat s)
  | some (JSVal.boolean b) => simp [priceInvalid, coercesToPositive]
  | some JSVal.nullV => simp [priceInvalid, coercesToPositive]
  | some JSVal.objV => simp [priceInvalid, coercesToPositive]

/-- C5 counterexample: with price Infinity the source emits no error,
although Infinity does not coerce to a finite positive number, so the
error is not equivalent to the failure of the finite-positive coercion. -/
theorem priceError_finite_claim_refuted :
    ¬ ((priceMsg ∈ validateProduct (some ⟨some (JSVal.str "x"), some (JSVal.num JSNum.inf)⟩)) ↔
      coercesToFinitePositive (some (JSVal.num JSNum.inf)) = false) := by
  decide

/-- C5 amended: validateProduct includes the price error iff the price
does not coerce to a positive number, where the coercion keeps numbers
and parses strings with parseFloat and where positive includes
Infinity; the numeric string "19.99" coerces to 19.99 and yields no
error. -/
theorem priceError_iff_positive_coercion :
    (∀ p : Option Candidate,
      priceMsg ∈ validateProduct p ↔ coercesToPositive (candidatePrice p) = false) ∧
    parseFloat "19.99" = JSNum.fin (1999 / 100) ∧
    validateProduct (some ⟨some (JSVal.str "x"), some (JSVal.str "19.99")⟩) = [] := by
  have h1999 : parseFloat "19.99" = JSNum.fin (1999 / 100) := by
    have h : lexFloat "19.99" = FloatParse.finP false 19 99 2 0 := by decide
    simp [parseFloat, h, floatValue, pow10]
    norm_num
  refine ⟨?_, h1999, ?_⟩
  · intro p
    match p with
    | none => simp [validateProduct, candidatePrice, coercesToPositive]
    | some c =>
      rw [candidatePrice, ← priceInvalid_iff]
      cases hn : nameInvalid c.name <;> cases hp : priceInvalid c.price <;>
        simp [validateProduct, hn, hp, Ne.symm nameMsg_ne_priceMsg]
  · have hn : nameInvalid (some (JSVal.str "x")) = false := by decide
    have hp : priceInvalid (some (JSVal.str "19.99")) = false := by
      simp [priceInvalid, h1999, JSNum.truthy, JSNum.leZero, JSNum.isNaN]
    simp [validateProduct, hn, hp]

/-- C6: the two rules are checked independently and every applicable
message is returned: the result is empty iff the candidate exists and
passes both checks; a null candidate yields both messages; an invalid
name with a valid price yields exactly the name message; an empty
object yields exactly the two messages. -/
theorem validateProduct_collects_all_errors :
    (∀ p : Option Candidate, validateProduct p = [] ↔
      ∃ c, p = some c ∧ nameInvalid c.name = false ∧ priceInvalid c.price = false) ∧
    validateProduct none = [nameMsg, priceMsg] ∧
    validateProduct (some ⟨some (JSVal.str ""), some (JSVal.num (JSNum.fin (1999 / 100)))⟩) =
      [nameMsg] ∧
    validateProduct (some ⟨none, none⟩) = [nameMsg, priceMsg] := by
  refine ⟨?_, by simp [validateProduct], ?_, by simp [validateProduct, nameInvalid, priceInvalid]⟩
  · intro p
    match p with
    | none => simp [validateProduct]
    | some c =>
      cases hn : nameInvalid c.name <;> cases hp : priceInvalid c.price <;>
        simp [validateProduct, hn, hp]
  · have hn : nameInvalid (some (JSVal.str "")) = true := by decide
    have hp : priceInvalid (some (JSVal.num (JSNum.fin (1999 / 100)))) = false := by
      simp [priceInvalid, JSNum.truthy, JSNum.leZero, JSNum.isNaN]
    simp [validateProduct, hn, hp]

/-- The contribution of one cart item to the balance: price times
quantity of the first catalog product with the item's productId, and 0
when none resolves. -/
def specContribution (products : List Product) (cartItem : CartItem) : ℚ :=
  match products.find? (fun p => p.id == cartItem.productId) with
  | some p => p.price * cartItem.quantity
  | none => 0

/-- A left fold of additions is the seed plus the sum of the mapped
list. -/
lemma foldl_add_sum {α : Type} (f : α → ℚ) (l : List α) :
    ∀ a : ℚ, l.foldl (fun s x => s + f x) a = a + (l.map f).sum := by
  induction l with
  | nil => intro a; simp
  | cons x rest ih =>
    intro a
    rw [List.foldl_cons, ih (a + f x), List.map_cons, List.sum_cons, add_assoc]

/-- The reduce inside calculateBalance equals the seed plus the sum of
the per-item contributions. -/
lemma calculateBalance_foldl (prods : List Product) (cart : List CartItem) :
    ∀ a : ℚ,
      cart.foldl
        (fun total cartItem =>
          match prods.find? (fun p => p.id == cartItem.productId) with
          | some product => total + product.price * cartItem.quantity
          | none => total) a
      = a + (cart.map (specContribution prods)).sum := by
  induction cart with
  | nil => intro a; simp
  | cons ci rest ih =>
    intro a
    rw [List.foldl_cons, List.map_cons, List.sum_cons]
    cases hf : prods.find? (fun p => p.id == ci.productId) <;>
      simp [hf, ih, specContribution, add_assoc]

/-- calculateBalance is the sum of the per-item contributions. -/
lemma calculateBalance_eq_sum (cart : List CartItem) (prods : List Product) :
    calculateBalance cart prods = (cart.map (specContribution prods)).sum := by
  rw [calculateBalance, calculateBalance_foldl, zero_add]

/-- With an empty catalog every contribution is 0, so the balance is 0. -/
lemma calculateBalance_nil_products (cart : List CartItem) :
    calculateBalance cart [] = 0 := by
  rw [calculateBalance_eq_sum]
  induction cart with
  | nil => simp
  | cons ci rest ih => simpa [specContribution] using ih

/-- The subtotal of a derived line is the item's contribution. -/
lemma cartLine_subtotal (prods : List Product) (ci : CartItem) :
    (cartLine prods ci).subtotal = specContribution prods ci := by
  cases hf : prods.find? (fun p => p.id == ci.productId) <;>
    simp [cartLine, specContribution, hf]

/-- A derived line keeps the productId of its cart item. -/
lemma cartLine_productId (prods : List Product) (ci : CartItem) :
    (cartLine prods ci).productId = ci.productId := by
  cases hf : prods.find? (fun p => p.id == ci.productId) <;> simp [cartLine, hf]

/-- In a catalog with pairwise distinct ids, find by id returns exactly
the member carrying that id. -/
lemma find_unique (prods : List Product) (h : (prods.map Product.id).Nodup)
    (pid : ℤ) (p : Product) (hp : p ∈ prods) (hid : p.id = pid) :
    prods.find? (fun q => q.id == pid) = some p := by
  induction prods with
  | nil => cases hp
  | cons q rest ih =>
    rw [List.map_cons, List.nodup_cons] at h
    rcases List.mem_cons.mp hp with rfl | hmem
    · have hq : (p.id == pid) = true := beq_iff_eq.mpr hid
      simp [List.find?, hq]
    · have hqne : (q.id == pid) = false := by
        refine beq_eq_false_iff_ne.mpr ?_
        intro he
        exact h.1 (by rw [he, ← hid]; exact List.mem_map_of_mem Product.id hmem)
      rw [List.find?_cons_of_neg _ (by simp [hqne]), ih h.2 hmem]

/-- C4: over a catalog with unique ids, calculateBalance sums
price times quantity over the items whose productId resolves by exact
id equality (first match, which uniqueness makes the only match),
contributing 0 for unresolved items; an empty cart and an empty catalog
both give 0. -/
theorem calculateBalance_spec (cart : List CartItem) (prods : List Product)
    (h : (prods.map Product.id).Nodup) :
    calculateBalance cart prods = (cart.map (specContribution prods)).sum ∧
    calculateBalance [] prods = 0 ∧
    calculateBalance cart [] = 0 ∧
    ∀ ci : CartItem, ∀ p ∈ prods, p.id = ci.productId →
      prods.find? (fun q => q.id == ci.productId) = some p := by
  refine ⟨calculateBalance_eq_sum cart prods, by simp [calculateBalance],
    calculateBalance_nil_products cart, ?_⟩
  intro ci p hp hid
  exact find_unique prods h ci.productId p hp hid

/-- C4 witness: the contribution sum at a concrete one-line cart and
one-product catalog with unique ids. -/
theorem calculateBalance_spec_witness :
    calculateBalance [⟨1, 1, 2, "t"⟩] [⟨1, "P", 10⟩] =
      (([⟨1, 1, 2, "t"⟩] : List CartItem).map (specContribution [⟨1, "P", 10⟩])).sum :=
  (calculateBalance_spec [⟨1, 1, 2, "t"⟩] [⟨1, "P", 10⟩] (by decide)).1

/-- C1: the summary returned by getCartWithDetails has a balance equal
to the sum of its items' subtotals and an itemCount equal to the sum of
the cart quantities, whatever the catalog resolves; a line whose
productId resolves to no catalog product has product null and subtotal
0. -/
theorem getCartWithDetails_invariants (cart : List CartItem) (prods : List Product) :
    (getCartWithDetails (ReadResult.ok cart) (ReadResult.ok prods)).balance =
      (((getCartWithDetails (ReadResult.ok cart) (ReadResult.ok prods)).items).map
        CartLineDetail.subtotal).sum ∧
    (getCartWithDetails (ReadResult.ok cart) (ReadResult.ok prods)).itemCount =
      (cart.map CartItem.quantity).sum ∧
    ∀ d ∈ (getCartWithDetails (ReadResult.ok cart) (ReadResult.ok prods)).items,
      (∀ p ∈ prods, p.id ≠ d.productId) → d.product = none ∧ d.subtotal = 0 := by
  refine ⟨?_, ?_, ?_⟩
  · show calculateBalance cart prods =
      ((cart.map (cartLine prods)).map CartLineDetail.subtotal).sum
    rw [List.map_map, calculateBalance_eq_sum]
    congr 1
    refine List.map_congr_left fun ci _ => ?_
    exact (cartLine_subtotal prods ci).symm
  · show cart.foldl (fun sum item => sum + item.quantity) 0 =
      (cart.map CartItem.quantity).sum
    rw [foldl_add_sum CartItem.quantity cart 0, zero_add]
  · intro d hd hnone
    obtain ⟨ci, hci, rfl⟩ := List.mem_map.mp hd
    have hfind : prods.find? (fun p => p.id == ci.productId) = none := by
      rw [List.find?_eq_none]
      intro p hp
      have := hnone p hp
      rw [cartLine_productId] at this
      simpa using this
    simp [cartLine, readProducts, readJson, hfind]

/-- C1 witness: a dangling cart line against the empty catalog has
product null and subtotal 0. -/
theorem getCartWithDetails_invariants_witness :
    (cartLine ([] : List Product) ⟨1, 999, 2, "t"⟩).product = none ∧
    (cartLine ([] : List Product) ⟨1, 999, 2, "t"⟩).subtotal = 0 :=
  (getCartWithDetails_invariants [⟨1, 999, 2, "t"⟩] []).2.2
    (cartLine [] ⟨1, 999, 2, "t"⟩)
    (by simp [getCartWithDetails, readCart, readProducts, readJson])
    (fun p hp => absurd hp (List.not_mem_nil p))

/-- The cart item a derived line spreads. -/
def lineToItem (d : CartLineDetail) : CartItem :=
  { id := d.id, productId := d.productId, quantity := d.quantity, addedAt := d.addedAt }

/-- C9: the summary's items list has exactly one line per cart item, in
order, and each line keeps every field of its cart item unchanged, with
only the product and subtotal fields added; the embedding is a pure
function of its inputs, mirroring that the source builds a fresh array
of fresh spread objects and never writes to the cart or the catalog. -/
theorem getCartWithDetails_preserves_inputs (cart : List CartItem) (prods : List Product) :
    ((getCartWithDetails (ReadResult.ok cart) (ReadResult.ok prods)).items).map lineToItem =
      cart ∧
    ((getCartWithDetails (ReadResult.ok cart) (ReadResult.ok prods)).items).length =
      cart.length := by
  have hline : ∀ ci : CartItem, lineToItem (cartLine prods ci) = ci := by
    intro ci
    cases hf : prods.find? (fun p => p.id == ci.productId) <;>
      simp [cartLine, lineToItem, hf]
  constructor
  · show (cart.map (cartLine prods)).map lineToItem = cart
    rw [List.map_map]
    calc cart.map (lineToItem ∘ cartLine prods)
        = cart.map id := List.map_congr_left fun ci _ => hline ci
      _ = cart := List.map_id cart
  · show (cart.map (cartLine prods)).length = cart.length
    exact List.length_map cart (cartLine prods)

/-- C8 counterexample: with a readable one-line cart and a failing
product source the summary is not the empty summary (its items list is
non-empty and its itemCount is 2). -/
theorem cartSummary_prodFailure_not_empty :
    getCartWithDetails (ReadResult.ok [⟨1, 999, 2, "t"⟩]) ReadResult.err ≠
      { items := [], balance := 0, itemCount := 0 } := by
  intro h
  have h2 := congrArg CartSummary.items h
  simp [getCartWithDetails, readCart, readProducts, readJson] at h2

/-- C8 amended: a failing cart source degrades to the empty summary
{ items: [], balance: 0, itemCount: 0 }, as does an empty cart; a
failing product source behaves exactly like an empty catalog: the cart
lines are kept with product null and subtotal 0 and the balance is 0,
itemCount unaffected. In every case the total function surfaces no
error. -/
theorem cartSummary_failSoft :
    (∀ ps : ReadResult (List Product),
      getCartWithDetails ReadResult.err ps =
        { items := [], balance := 0, itemCount := 0 }) ∧
    (∀ ps : ReadResult (List Product),
      getCartWithDetails (ReadResult.ok []) ps =
        { items := [], balance := 0, itemCount := 0 }) ∧
    (∀ cart : List CartItem,
      getCartWithDetails (ReadResult.ok cart) ReadResult.err =
        getCartWithDetails (ReadResult.ok cart) (ReadResult.ok []) ∧
      (getCartWithDetails (ReadResult.ok cart) ReadResult.err).balance = 0 ∧
      ∀ d ∈ (getCartWithDetails (ReadResult.ok cart) ReadResult.err).items,
        d.product = none ∧ d.subtotal = 0) := by
  refine ⟨fun ps => rfl, fun ps => rfl, fun cart => ⟨rfl, ?_, ?_⟩⟩
  · show calculateBalance cart [] = 0
    exact calculateBalance_nil_products cart
  · intro d hd
    obtain ⟨ci, hci, rfl⟩ := List.mem_map.mp hd
    simp [cartLine, readProducts, readJson]

/-- C8 witness: the product-source-failure branch evaluated on a
concrete one-line cart. -/
theorem cartSummary_failSoft_witness :
    (getCartWithDetails (ReadResult.ok [⟨2, 500, 3, "u"⟩]) ReadResult.err).balance = 0 ∧
    (cartLine ([] : List Product) ⟨2, 500, 3, "u"⟩).product = none ∧
    (cartLine ([] : List Product) ⟨2, 500, 3, "u"⟩).subtotal = 0 :=
  ⟨(cartSummary_failSoft.2.2 [⟨2, 500, 3, "u"⟩]).2.1,
    (cartSummary_failSoft.2.2 [⟨2, 500, 3, "u"⟩]).2.2 (cartLine [] ⟨2, 500, 3, "u"⟩)
      (by simp [getCartWithDetails, readCart, readProducts, readJson])⟩
